import Mathlib

/-!
# A shallow embedding of the `eq_archive` crate

This file embeds the two source files of the `eq_archive` repository
(`src/parser.rs` and `src/lib.rs`) into Lean and proves properties about
them.

Modelling conventions:

* A Rust byte buffer `&[u8]` is a `List Nat`; the predicate `Bytes`
  states that every element is `< 256`.
* A nom parser `Fn(&[u8]) -> IResult<&[u8], O>` becomes a Lean function
  `List Nat → Res (List Nat × O)`.  `Res.err` is a nom `Err` (the
  `CorruptArchive`-style recoverable failure), while `Res.panic` models a
  Rust panic / process abort (`expect`, `unwrap`, out-of-range slicing,
  or — as a totalisation device — a diverging loop).
* `u32` arithmetic uses `Nat` with explicit wrapping modulo `2^32` where
  the Rust source can overflow (release-profile wrapping semantics):
  `header.pointer - HEADER_SIZE`, `e.pointer - HEADER_SIZE`,
  `BLOCK_HEADER_SIZE + b.compressed_size` and
  `bytes_remaining -= b.uncompressed_size`.
* The zlib inflation performed by the external `flate2` crate is not code
  of this repository; it is abstracted as a parameter
  `inflate : List Nat → Option (List Nat)` (`none` models a malformed
  deflate stream, on which the source calls `.expect` and panics).
* Rust's stable `sort_by_key(|a| a.pointer)` is modelled by the stable
  `List.insertionSort` with the relation `a.pointer ≤ b.pointer`; any two
  stable sorts by the same total preorder agree elementwise.
-/

namespace EqArchive

/-- Result of running a piece of the Rust program: a value, a recoverable
nom-style parse error, or a panic (process abort). -/
inductive Res (α : Type) where
  | ok : α → Res α
  | err : Res α
  | panic : Res α
  deriving DecidableEq, Repr

/-- Sequencing that propagates both parse errors and panics, as Rust's
`?` operator and panic unwinding do. -/
def Res.bind {α β : Type} : Res α → (α → Res β) → Res β
  | .ok a, f => f a
  | .err, _ => .err
  | .panic, _ => .panic

/-- Map over a successful result. -/
def Res.map {α β : Type} (f : α → β) : Res α → Res β
  | .ok a => .ok (f a)
  | .err => .err
  | .panic => .panic

/-- Every element of the list is a byte value. -/
def Bytes (l : List Nat) : Prop := ∀ b ∈ l, b < 256

instance : DecidablePred Bytes := fun l =>
  inferInstanceAs (Decidable (∀ b ∈ l, b < 256))

/-- Rust's `const HEADER_SIZE: u32 = 12`. -/
def HEADER_SIZE : Nat := 12

/-- Rust's `const BLOCK_HEADER_SIZE: u32 = 8`. -/
def BLOCK_HEADER_SIZE : Nat := 8

/-- The modulus of `u32` arithmetic, `2^32`. -/
def U32MOD : Nat := 4294967296

/-- Wrapping `u32` subtraction `a - b` (release-profile Rust semantics);
faithful whenever `b ≤ 2^32`, which holds for every `u32` value. -/
def wsub32 (a b : Nat) : Nat := (a + (U32MOD - b)) % U32MOD

/-- Wrapping `u32` addition (release-profile Rust semantics). -/
def wadd32 (a b : Nat) : Nat := (a + b) % U32MOD

/-- nom's `le_u32`: consume four bytes, little-endian. -/
def le_u32 (input : List Nat) : Res (List Nat × Nat) :=
  match input with
  | b0 :: b1 :: b2 :: b3 :: rest =>
      .ok (rest, b0 + 256 * b1 + 65536 * b2 + 16777216 * b3)
  | _ => .err

/-- nom's `bytes::complete::take(n)`: consume exactly `n` bytes or fail. -/
def takeBytes (n : Nat) (input : List Nat) : Res (List Nat × List Nat) :=
  if n ≤ input.length then .ok (input.drop n, input.take n) else .err

/-- nom's `multi::count(p, n)`: run `p` exactly `n` times. -/
def countN {α : Type} (p : List Nat → Res (List Nat × α)) :
    Nat → List Nat → Res (List Nat × List α)
  | 0, input => .ok (input, [])
  | n + 1, input =>
      Res.bind (p input) fun s =>
      Res.bind (countN p n s.1) fun t =>
      .ok (t.1, s.2 :: t.2)

/-- Mirrors `struct Header { pointer, magic_number, version }`. -/
structure Header where
  pointer : Nat
  magic_number : Nat
  version : Nat
  deriving DecidableEq, Repr

/-- Embeds `fn header`: three little-endian `u32`s. -/
def header (input : List Nat) : Res (List Nat × Header) :=
  Res.bind (le_u32 input) fun s0 =>
  Res.bind (le_u32 s0.1) fun s1 =>
  Res.bind (le_u32 s1.1) fun s2 =>
  .ok (s2.1, ⟨s0.2, s1.2, s2.2⟩)

/-- Mirrors `struct Block { compressed_size, uncompressed_size, data }`. -/
structure Block where
  compressed_size : Nat
  uncompressed_size : Nat
  data : List Nat
  deriving DecidableEq, Repr

/-- Embeds `fn block`: two little-endian `u32`s, then `compressed_size` raw bytes. -/
def block (input : List Nat) : Res (List Nat × Block) :=
  Res.bind (le_u32 input) fun s0 =>
  Res.bind (le_u32 s0.1) fun s1 =>
  Res.bind (takeBytes s0.2 s1.1) fun s2 =>
  .ok (s2.1, ⟨s0.2, s1.2, s2.2⟩)

/-- Mirrors `struct Entry { filename_crc, pointer, uncompressed_size, blocks }`. -/
structure Entry where
  filename_crc : Nat
  pointer : Nat
  uncompressed_size : Nat
  blocks : Option (List Block)
  deriving DecidableEq, Repr

/-- Embeds `fn entry`: three little-endian `u32`s; `blocks` starts as `None`. -/
def entry (input : List Nat) : Res (List Nat × Entry) :=
  Res.bind (le_u32 input) fun s0 =>
  Res.bind (le_u32 s0.1) fun s1 =>
  Res.bind (le_u32 s1.1) fun s2 =>
  .ok (s2.1, ⟨s0.2, s1.2, s2.2, none⟩)

/-- Mirrors `struct Footer { footer_string, timestamp }`. -/
structure Footer where
  footer_string : List Nat
  timestamp : Nat
  deriving DecidableEq, Repr

/-- Embeds `fn footer`: five raw bytes, then a little-endian `u32`. -/
def footer (input : List Nat) : Res (List Nat × Footer) :=
  Res.bind (takeBytes 5 input) fun s0 =>
  Res.bind (le_u32 s0.1) fun s1 =>
  .ok (s1.1, ⟨s0.2, s1.2⟩)

/-- Mirrors `struct Archive { header, entry_count, entries, footer }`. -/
structure Archive where
  header : Header
  entry_count : Nat
  entries : List Entry
  footer : Footer
  deriving DecidableEq, Repr

/-- The `while bytes_remaining > 0` loop of `fn archive` that collects one
entry's block chain from the data region.

`offset` is a `usize` (no wrapping needed in practice, 64-bit), `remaining`
the wrapping `u32` counter `bytes_remaining`.  `&data[offset..]` with
`offset > data.len()` is an out-of-range slice, hence a panic; a failing
`block` parse panics through `.expect("Error parsing block")`.  The loop is
totalised by `fuel`; the callers pass `data.length + 2`, which the loop can
only exhaust on inputs where the Rust original diverges (a wrapped
`8 + compressed_size` increment of `0`, requiring a ≥ 4 GiB buffer), and
exhaustion is reported as a non-result (`panic`). -/
def chainBlocks (data : List Nat) : Nat → Nat → Nat → Res (List Block)
  | 0, _, _ => .panic
  | _ + 1, _, 0 => .ok []
  | fuel + 1, offset, remaining + 1 =>
      if offset > data.length then .panic
      else
        match block (data.drop offset) with
        | .ok (_, b) =>
            Res.map (fun bs => b :: bs)
              (chainBlocks data fuel (offset + wadd32 BLOCK_HEADER_SIZE b.compressed_size)
                (wsub32 (remaining + 1) b.uncompressed_size))
        | _ => .panic

/-- The body of the `.map(|mut e| ...)` closure in `fn archive`: populate
one entry's `blocks`, starting at `offset = (e.pointer - HEADER_SIZE)`
with `bytes_remaining = e.uncompressed_size`. -/
def populateEntry (data : List Nat) (e : Entry) : Res Entry :=
  Res.map (fun bs => { e with blocks := some bs })
    (chainBlocks data (data.length + 2) (wsub32 e.pointer HEADER_SIZE) e.uncompressed_size)

/-- The `entries.into_iter().map(...).collect()` over `populateEntry`. -/
def populateEntries (data : List Nat) : List Entry → Res (List Entry)
  | [] => .ok []
  | e :: es =>
      Res.bind (populateEntry data e) fun e1 =>
      Res.bind (populateEntries data es) fun es1 =>
      .ok (e1 :: es1)

/-- The part of `fn archive` after the header has been read: take the data
region (`pointer - HEADER_SIZE` bytes), read `entry_count`, read the entry
records and the footer, sort the entries by `pointer` (a stable sort, as
Rust's `sort_by_key`), and populate every entry's block chain.  Only the
header's `pointer` field is consumed here. -/
def archiveBody (pointer : Nat) (i : List Nat) :
    Res (List Nat × Nat × List Entry × Footer) :=
  Res.bind (takeBytes (wsub32 pointer HEADER_SIZE) i) fun s0 =>
  Res.bind (le_u32 s0.1) fun s1 =>
  Res.bind (countN entry s1.2 s1.1) fun s2 =>
  Res.bind (footer s2.1) fun s3 =>
  Res.bind
    (populateEntries s0.2
      (List.insertionSort (fun a b => a.pointer ≤ b.pointer) s2.2)) fun es =>
  .ok (s3.1, s1.2, es, s3.2)

/-- Embeds `fn archive`. -/
def archive (input : List Nat) : Res (List Nat × Archive) :=
  Res.bind (header input) fun s =>
  Res.map (fun t => (t.1, ⟨s.2, t.2.1, t.2.2.1, t.2.2.2⟩)) (archiveBody s.2.pointer s.1)

/-- Embeds `pub fn parse`: run `archive` and drop the unconsumed suffix. -/
def parse (data : List Nat) : Res Archive :=
  Res.map (fun s => s.2) (archive data)

/-- A UTF-8 continuation byte, `0x80 ..= 0xBF`. -/
def utf8Cont (b : Nat) : Bool := 128 ≤ b && b ≤ 191

/-- Validity of a byte sequence as UTF-8, as checked by Rust's
`String::from_utf8` (RFC 3629: no overlong forms, no surrogates, at most
four bytes per scalar). -/
def utf8Valid : List Nat → Bool
  | [] => true
  | b :: rest =>
      if b ≤ 127 then utf8Valid rest
      else if 194 ≤ b && b ≤ 223 then
        match rest with
        | b1 :: r => utf8Cont b1 && utf8Valid r
        | [] => false
      else if b == 224 then
        match rest with
        | b1 :: b2 :: r => (160 ≤ b1 && b1 ≤ 191) && utf8Cont b2 && utf8Valid r
        | _ => false
      else if (225 ≤ b && b ≤ 236) || (238 ≤ b && b ≤ 239) then
        match rest with
        | b1 :: b2 :: r => utf8Cont b1 && utf8Cont b2 && utf8Valid r
        | _ => false
      else if b == 237 then
        match rest with
        | b1 :: b2 :: r => (128 ≤ b1 && b1 ≤ 159) && utf8Cont b2 && utf8Valid r
        | _ => false
      else if b == 240 then
        match rest with
        | b1 :: b2 :: b3 :: r =>
            (144 ≤ b1 && b1 ≤ 191) && utf8Cont b2 && utf8Cont b3 && utf8Valid r
        | _ => false
      else if 241 ≤ b && b ≤ 243 then
        match rest with
        | b1 :: b2 :: b3 :: r =>
            utf8Cont b1 && utf8Cont b2 && utf8Cont b3 && utf8Valid r
        | _ => false
      else if b == 244 then
        match rest with
        | b1 :: b2 :: b3 :: r =>
            (128 ≤ b1 && b1 ≤ 143) && utf8Cont b2 && utf8Cont b3 && utf8Valid r
        | _ => false
      else false

/-- Rust's `trim_end_matches('\0')` at the byte level: drop all trailing
NUL bytes (the NUL scalar is a single byte in UTF-8). -/
def trimEndNulls (l : List Nat) : List Nat :=
  (l.reverse.dropWhile (fun b => b == 0)).reverse

/-- Embeds `fn directory_string`: `length_data(le_u32)` (a `u32` length prefix
followed by that many bytes), then `String::from_utf8(...).unwrap()`
(a panic on invalid UTF-8), then trailing-NUL trimming.  The resulting
string is modelled by its UTF-8 bytes. -/
def directory_string (input : List Nat) : Res (List Nat × List Nat) :=
  Res.bind (le_u32 input) fun s0 =>
  Res.bind (takeBytes s0.2 s0.1) fun s1 =>
  if utf8Valid s1.2 then .ok (s1.1, trimEndNulls s1.2) else .panic

/-- Embeds `pub fn directory`: a leading `u32` file count, then that many
`directory_string`s. -/
def directory (input : List Nat) : Res (List Nat × List (List Nat)) :=
  Res.bind (le_u32 input) fun s0 =>
  Res.bind (countN directory_string s0.2 s0.1) fun s1 =>
  .ok (s1.1, s1.2)

/-- The `flat_map` body of `Entry::decompress`: inflate each block's
compressed payload (a panic on a malformed stream, through
`.expect("Failed to decompress block")`) and concatenate the outputs. -/
def inflateBlocks (inflate : List Nat → Option (List Nat)) :
    List Block → Res (List Nat)
  | [] => .ok []
  | b :: bs =>
      match inflate b.data with
      | none => .panic
      | some d => Res.map (fun rest => d ++ rest) (inflateBlocks inflate bs)

/-- Embeds `Entry::decompress`: `blocks.as_ref().expect(...)` (a panic when the
blocks were never populated), then per-block inflation and concatenation.
`inflate` abstracts the external `flate2::read::ZlibDecoder`. -/
def Entry.decompress (inflate : List Nat → Option (List Nat)) (e : Entry) :
    Res (List Nat) :=
  match e.blocks with
  | none => .panic
  | some bs => inflateBlocks inflate bs

/-- Embeds `Archive::filenames`: decompress the last entry
(`.expect("Directory block does not exist")` panics on an empty archive)
and parse it as a directory
(`.expect("Failed to parse directory block")` panics on a parse error). -/
def Archive.filenames (inflate : List Nat → Option (List Nat)) (a : Archive) :
    Res (List (List Nat)) :=
  match a.entries.getLast? with
  | none => .panic
  | some dir =>
      Res.bind (Entry.decompress inflate dir) fun uncompressed =>
      match directory uncompressed with
      | .ok s => .ok s.2
      | _ => .panic

/-- Rust's `Iterator::position`: index of the first element satisfying the
predicate. -/
def position {α : Type} (p : α → Bool) : List α → Option Nat
  | [] => none
  | x :: xs => if p x then some 0 else (position p xs).map (· + 1)

/-- Rust's `u8::to_ascii_lowercase`: fold `A ..= Z` to `a ..= z`, leave
every other byte (including non-ASCII bytes) unchanged. -/
def toAsciiLower (b : Nat) : Nat := if 65 ≤ b && b ≤ 90 then b + 32 else b

/-- Rust's `str::eq_ignore_ascii_case` on the UTF-8 bytes: equality after
bytewise ASCII lowercasing. -/
def eqIgnoreAsciiCase (a b : List Nat) : Bool :=
  a.map toAsciiLower == b.map toAsciiLower

/-- Embeds `Archive::get`: find the first filename matching case-insensitively;
on a match, decompress the entry at that position (`entries.get` yielding
`None` gives `None` overall); no match is `None`, not an error. -/
def Archive.get (inflate : List Nat → Option (List Nat)) (a : Archive)
    (filename : List Nat) : Res (Option (List Nat)) :=
  Res.bind (Archive.filenames inflate a) fun fns =>
  match position (fun f => eqIgnoreAsciiCase f filename) fns with
  | some pos =>
      match a.entries.get? pos with
      | some e => Res.map some (Entry.decompress inflate e)
      | none => .ok none
  | none => .ok none

/-- Elementwise decompression for `Archive::files`. -/
def decompressAll (inflate : List Nat → Option (List Nat)) :
    List Entry → Res (List (List Nat))
  | [] => .ok []
  | e :: es =>
      Res.bind (Entry.decompress inflate e) fun d =>
      Res.map (fun ds => d :: ds) (decompressAll inflate es)

/-- Embeds `Archive::files`, fully consumed: `filenames().into_iter().zip(entries
.into_iter().map(decompress))`.  The zip stops at the shorter side, so
only the first `filenames.length` entries are ever decompressed. -/
def Archive.files (inflate : List Nat → Option (List Nat)) (a : Archive) :
    Res (List (List Nat × List Nat)) :=
  Res.bind (Archive.filenames inflate a) fun fns =>
  Res.map (fun datas => fns.zip datas)
    (decompressAll inflate (a.entries.take fns.length))

end EqArchive

namespace EqArchive

example : le_u32 [1, 0, 0, 0, 9] = .ok ([9], 1) := by decide

example : utf8Valid [99, 97, 102, 195, 169] = true := by decide

example : utf8Valid [255] = false := by decide

example : utf8Valid [195] = false := by decide

example : eqIgnoreAsciiCase [99, 97, 102, 195, 169] [67, 65, 70, 195, 137] = false := by
  decide

example : eqIgnoreAsciiCase [99, 97, 102, 101] [67, 65, 70, 69] = true := by decide

/-! ## Concrete fixtures

Byte buffers exercising the parser, and the archive values they parse to.
The `inflate*` oracles stand for the deterministic zlib decompressor:
they map the opaque compressed payloads occurring in the fixtures to
chosen plaintexts. -/

/-- A well-formed two-entry archive: entry 0 holds file data in one block,
entry 1 is the directory (names `a.txt`, `b.txt`). -/
def demoData : List Nat :=
  [35, 0, 0, 0, 77, 0, 0, 0, 1, 0, 0, 0] ++
  ([3, 0, 0, 0, 5, 0, 0, 0, 1, 2, 3] ++ [4, 0, 0, 0, 22, 0, 0, 0, 9, 9, 9, 9]) ++
  [2, 0, 0, 0] ++
  [10, 0, 0, 0, 12, 0, 0, 0, 5, 0, 0, 0] ++
  [20, 0, 0, 0, 23, 0, 0, 0, 22, 0, 0, 0] ++
  [83, 84, 69, 86, 69, 0, 0, 0, 0]

/-- The decompressed directory payload of `demoData`:
`file_count = 2`, names `a.txt` and `b.txt`. -/
def demoDirPayload : List Nat :=
  [2, 0, 0, 0,
   5, 0, 0, 0, 97, 46, 116, 120, 116,
   5, 0, 0, 0, 98, 46, 116, 120, 116]

/-- Inflation oracle for `demoData`. -/
def inflateDemo (d : List Nat) : Option (List Nat) :=
  if d == [1, 2, 3] then some [100, 101, 102, 103, 104]
  else if d == [9, 9, 9, 9] then some demoDirPayload
  else none

/-- The archive value `demoData` parses to. -/
def archDemo : Archive :=
  ⟨⟨35, 77, 1⟩, 2,
   [⟨10, 12, 5, some [⟨3, 5, [1, 2, 3]⟩]⟩,
    ⟨20, 23, 22, some [⟨4, 22, [9, 9, 9, 9]⟩]⟩],
   ⟨[83, 84, 69, 86, 69], 0⟩⟩

example : parse demoData = .ok archDemo := by decide

/-- A buffer whose single entry declares `uncompressed_size = 1` while its
first block declares `uncompressed_size = 2`: the `bytes_remaining`
counter wraps to `2^32 - 1` and a second block of declared uncompressed
size `2^32 - 1` brings it back to exactly `0`. -/
def wrapData : List Nat :=
  [28, 0, 0, 0, 0, 0, 0, 0, 0, 0, 0, 0] ++
  ([0, 0, 0, 0, 2, 0, 0, 0] ++ [0, 0, 0, 0, 255, 255, 255, 255]) ++
  [1, 0, 0, 0] ++
  [7, 0, 0, 0, 12, 0, 0, 0, 1, 0, 0, 0] ++
  [70, 79, 79, 84, 82, 0, 0, 0, 0]

/-- The archive value `wrapData` parses to: two zero-payload blocks whose
declared uncompressed sizes sum to `2^32 + 1`, against a declared entry
size of `1`. -/
def archWrap : Archive :=
  ⟨⟨28, 0, 0⟩, 1,
   [⟨7, 12, 1, some [⟨0, 2, []⟩, ⟨0, 4294967295, []⟩]⟩],
   ⟨[70, 79, 79, 84, 82], 0⟩⟩

example : parse wrapData = .ok archWrap := by decide

/-- A buffer whose single block declares `compressed_size = 100` with only
an 8-byte data region: the block parse fails and the source panics through
`.expect("Error parsing block")`. -/
def oversizeData : List Nat :=
  [20, 0, 0, 0, 0, 0, 0, 0, 0, 0, 0, 0] ++
  [100, 0, 0, 0, 5, 0, 0, 0] ++
  [1, 0, 0, 0] ++
  [7, 0, 0, 0, 12, 0, 0, 0, 5, 0, 0, 0] ++
  [70, 79, 79, 84, 82, 0, 0, 0, 0]

example : parse oversizeData = .panic := by decide

/-- An archive with `entry_count = 0`: parsing succeeds, but there is no
directory entry for `filenames` to read. -/
def emptyData : List Nat :=
  [12, 0, 0, 0, 0, 0, 0, 0, 0, 0, 0, 0] ++
  [0, 0, 0, 0] ++
  [70, 79, 79, 84, 82, 0, 0, 0, 0]

/-- The archive value `emptyData` parses to. -/
def archEmpty : Archive :=
  ⟨⟨12, 0, 0⟩, 0, [], ⟨[70, 79, 79, 84, 82], 0⟩⟩

example : parse emptyData = .ok archEmpty := by decide

/-- A two-entry archive whose directory payload declares `file_count = 1`
(one name `a`), mismatching the outer `entry_count = 2`. -/
def mismatchData : List Nat :=
  [31, 0, 0, 0, 0, 0, 0, 0, 0, 0, 0, 0] ++
  ([1, 0, 0, 0, 3, 0, 0, 0, 1] ++ [2, 0, 0, 0, 9, 0, 0, 0, 8, 8]) ++
  [2, 0, 0, 0] ++
  [1, 0, 0, 0, 12, 0, 0, 0, 3, 0, 0, 0] ++
  [2, 0, 0, 0, 21, 0, 0, 0, 9, 0, 0, 0] ++
  [70, 79, 79, 84, 82, 0, 0, 0, 0]

/-- Inflation oracle for `mismatchData`: the directory block inflates to a
payload with `file_count = 1` and the single name `a`. -/
def inflateMis (d : List Nat) : Option (List Nat) :=
  if d == [1] then some [5, 5, 5]
  else if d == [8, 8] then some [1, 0, 0, 0, 1, 0, 0, 0, 97]
  else none

/-- Inflation oracle making `mismatchData`'s directory block inflate to a
payload whose one name is the invalid UTF-8 byte `0xFF`. -/
def inflateMisBad (d : List Nat) : Option (List Nat) :=
  if d == [1] then some [5, 5, 5]
  else if d == [8, 8] then some [1, 0, 0, 0, 1, 0, 0, 0, 255]
  else none

/-- Inflation oracle making `mismatchData`'s directory block inflate to a
payload whose one name declares length 9 with only 1 byte following (a
length prefix overrunning the payload buffer). -/
def inflateMisOverrun (d : List Nat) : Option (List Nat) :=
  if d == [1] then some [5, 5, 5]
  else if d == [8, 8] then some [1, 0, 0, 0, 9, 0, 0, 0, 97]
  else none

/-- The archive value `mismatchData` parses to. -/
def archMis : Archive :=
  ⟨⟨31, 0, 0⟩, 2,
   [⟨1, 12, 3, some [⟨1, 3, [1]⟩]⟩,
    ⟨2, 21, 9, some [⟨2, 9, [8, 8]⟩]⟩],
   ⟨[70, 79, 79, 84, 82], 0⟩⟩

example : parse mismatchData = .ok archMis := by decide

/-- A two-entry archive whose directory lists the same name `a` twice. -/
def dupData : List Nat :=
  [31, 0, 0, 0, 0, 0, 0, 0, 0, 0, 0, 0] ++
  ([1, 0, 0, 0, 1, 0, 0, 0, 1] ++ [2, 0, 0, 0, 13, 0, 0, 0, 8, 8]) ++
  [2, 0, 0, 0] ++
  [1, 0, 0, 0, 12, 0, 0, 0, 1, 0, 0, 0] ++
  [2, 0, 0, 0, 21, 0, 0, 0, 13, 0, 0, 0] ++
  [70, 79, 79, 84, 82, 0, 0, 0, 0]

/-- The decompressed directory payload of `dupData`: `file_count = 2`,
names `a` and `a`. -/
def dupDirPayload : List Nat :=
  [2, 0, 0, 0, 1, 0, 0, 0, 97, 1, 0, 0, 0, 97]

/-- Inflation oracle for `dupData`. -/
def inflateDup (d : List Nat) : Option (List Nat) :=
  if d == [1] then some [5]
  else if d == [8, 8] then some dupDirPayload
  else none

/-- The archive value `dupData` parses to. -/
def archDup : Archive :=
  ⟨⟨31, 0, 0⟩, 2,
   [⟨1, 12, 1, some [⟨1, 1, [1]⟩]⟩,
    ⟨2, 21, 13, some [⟨2, 13, [8, 8]⟩]⟩],
   ⟨[70, 79, 79, 84, 82], 0⟩⟩

example : parse dupData = .ok archDup := by decide

/-- A three-entry archive whose directory names are `café`, `CAFÉ` and
`d`: two names differing only in the case of the non-ASCII letter `é`. -/
def caseData : List Nat :=
  [40, 0, 0, 0, 0, 0, 0, 0, 0, 0, 0, 0] ++
  ([1, 0, 0, 0, 1, 0, 0, 0, 1] ++ [1, 0, 0, 0, 1, 0, 0, 0, 2] ++
   [2, 0, 0, 0, 27, 0, 0, 0, 8, 8]) ++
  [3, 0, 0, 0] ++
  [1, 0, 0, 0, 12, 0, 0, 0, 1, 0, 0, 0] ++
  [2, 0, 0, 0, 21, 0, 0, 0, 1, 0, 0, 0] ++
  [3, 0, 0, 0, 30, 0, 0, 0, 27, 0, 0, 0] ++
  [70, 79, 79, 84, 82, 0, 0, 0, 0]

/-- The decompressed directory payload of `caseData`: `file_count = 3`,
names `café` (`63 61 66 C3 A9`), `CAFÉ` (`43 41 46 C3 89`) and `d`. -/
def caseDirPayload : List Nat :=
  [3, 0, 0, 0,
   5, 0, 0, 0, 99, 97, 102, 195, 169,
   5, 0, 0, 0, 67, 65, 70, 195, 137,
   1, 0, 0, 0, 100]

/-- Inflation oracle for `caseData`. -/
def inflateCase (d : List Nat) : Option (List Nat) :=
  if d == [1] then some [10]
  else if d == [2] then some [20]
  else if d == [8, 8] then some caseDirPayload
  else none

/-- The archive value `caseData` parses to. -/
def archCase : Archive :=
  ⟨⟨40, 0, 0⟩, 3,
   [⟨1, 12, 1, some [⟨1, 1, [1]⟩]⟩,
    ⟨2, 21, 1, some [⟨1, 1, [2]⟩]⟩,
    ⟨3, 30, 27, some [⟨2, 27, [8, 8]⟩]⟩],
   ⟨[70, 79, 79, 84, 82], 0⟩⟩

example : parse caseData = .ok archCase := by decide

example :
    Archive.filenames inflateDemo archDemo =
      .ok [[97, 46, 116, 120, 116], [98, 46, 116, 120, 116]] := by decide

example :
    Archive.get inflateDemo archDemo [65, 46, 84, 88, 84] =
      .ok (some [100, 101, 102, 103, 104]) := by decide

/-! ## Destructuring lemmas for the embedded combinators -/

theorem Res.bind_ok {α β : Type} {x : Res α} {f : α → Res β} {v : β}
    (h : Res.bind x f = .ok v) : ∃ a, x = .ok a ∧ f a = .ok v := by
  cases x with
  | ok a => exact ⟨a, rfl, h⟩
  | err => simp [Res.bind] at h
  | panic => simp [Res.bind] at h

theorem Res.map_ok {α β : Type} {f : α → β} {x : Res α} {v : β}
    (h : Res.map f x = .ok v) : ∃ a, x = .ok a ∧ v = f a := by
  cases x with
  | ok a =>
      simp only [Res.map, Res.ok.injEq] at h
      exact ⟨a, rfl, h.symm⟩
  | err => simp [Res.map] at h
  | panic => simp [Res.map] at h

theorem le_u32_shape {input : List Nat} {s : List Nat × Nat}
    (h : le_u32 input = .ok s) :
    ∃ b0 b1 b2 b3, input = b0 :: b1 :: b2 :: b3 :: s.1 ∧
      s.2 = b0 + 256 * b1 + 65536 * b2 + 16777216 * b3 := by
  match input with
  | [] => simp [le_u32] at h
  | [_] => simp [le_u32] at h
  | [_, _] => simp [le_u32] at h
  | [_, _, _] => simp [le_u32] at h
  | b0 :: b1 :: b2 :: b3 :: rest =>
      simp only [le_u32, Res.ok.injEq] at h
      exact ⟨b0, b1, b2, b3, by rw [← h], by rw [← h]⟩

theorem le_u32_drop {input : List Nat} {s : List Nat × Nat}
    (h : le_u32 input = .ok s) : s.1 = input.drop 4 := by
  obtain ⟨b0, b1, b2, b3, hin, -⟩ := le_u32_shape h
  rw [hin]
  rfl

theorem le_u32_lt {input : List Nat} {s : List Nat × Nat}
    (h : le_u32 input = .ok s) (hB : Bytes input) : s.2 < U32MOD := by
  obtain ⟨b0, b1, b2, b3, hin, hv⟩ := le_u32_shape h
  have h0 : b0 < 256 := hB b0 (by rw [hin]; simp)
  have h1 : b1 < 256 := hB b1 (by rw [hin]; simp)
  have h2 : b2 < 256 := hB b2 (by rw [hin]; simp)
  have h3 : b3 < 256 := hB b3 (by rw [hin]; simp)
  rw [hv]
  unfold U32MOD
  omega

theorem takeBytes_ok {n : Nat} {input : List Nat} {s : List Nat × List Nat}
    (h : takeBytes n input = .ok s) :
    s.1 = input.drop n ∧ s.2 = input.take n ∧ n ≤ input.length := by
  unfold takeBytes at h
  split at h
  · simp only [Res.ok.injEq] at h
    refine ⟨by rw [← h], by rw [← h], by assumption⟩
  · simp at h

theorem Bytes.drop {l : List Nat} (hB : Bytes l) (n : Nat) :
    Bytes (l.drop n) := fun b hb => hB b (List.drop_subset n l hb)

theorem Bytes.take {l : List Nat} (hB : Bytes l) (n : Nat) :
    Bytes (l.take n) := fun b hb => hB b (List.take_subset n l hb)

theorem block_ok {input : List Nat} {s : List Nat × Block}
    (h : block input = .ok s) (hB : Bytes input) :
    s.2.compressed_size < U32MOD ∧ s.2.uncompressed_size < U32MOD := by
  unfold block at h
  obtain ⟨s0, h0, h⟩ := Res.bind_ok h
  obtain ⟨s1, h1, h⟩ := Res.bind_ok h
  obtain ⟨s2, h2, h⟩ := Res.bind_ok h
  simp only [Res.ok.injEq] at h
  have hb0 : Bytes s0.1 := by rw [le_u32_drop h0]; exact hB.drop 4
  have hcs : s0.2 < U32MOD := le_u32_lt h0 hB
  have hus : s1.2 < U32MOD := le_u32_lt h1 hb0
  rw [← h]
  exact ⟨hcs, hus⟩

theorem countN_length {α : Type} {p : List Nat → Res (List Nat × α)} :
    ∀ {n : Nat} {input : List Nat} {s : List Nat × List α},
      countN p n input = .ok s → s.2.length = n := by
  intro n
  induction n with
  | zero =>
      intro input s h
      simp only [countN, Res.ok.injEq] at h
      rw [← h]
      rfl
  | succ m ih =>
      intro input s h
      unfold countN at h
      obtain ⟨t0, h0, h⟩ := Res.bind_ok h
      obtain ⟨t1, h1, h⟩ := Res.bind_ok h
      simp only [Res.ok.injEq] at h
      have := ih h1
      rw [← h]
      simp [this]

theorem populateEntry_ok {data : List Nat} {e e' : Entry}
    (h : populateEntry data e = .ok e') :
    ∃ bs, chainBlocks data (data.length + 2) (wsub32 e.pointer HEADER_SIZE)
        e.uncompressed_size = .ok bs ∧ e' = { e with blocks := some bs } := by
  unfold populateEntry at h
  obtain ⟨bs, h1, h2⟩ := Res.map_ok h
  exact ⟨bs, h1, h2⟩

theorem populateEntries_ok {data : List Nat} :
    ∀ {es es' : List Entry}, populateEntries data es = .ok es' →
      es'.length = es.length ∧
      es'.map Entry.pointer = es.map Entry.pointer ∧
      ∀ e' ∈ es', ∃ e ∈ es, populateEntry data e = .ok e' := by
  intro es
  induction es with
  | nil =>
      intro es' h
      simp only [populateEntries, Res.ok.injEq] at h
      subst h
      simp
  | cons e t ih =>
      intro es' h
      unfold populateEntries at h
      obtain ⟨e1, h1, h⟩ := Res.bind_ok h
      obtain ⟨t1, h2, h⟩ := Res.bind_ok h
      simp only [Res.ok.injEq] at h
      obtain ⟨hl, hm, hp⟩ := ih h2
      obtain ⟨bs, -, hb⟩ := populateEntry_ok h1
      subst h
      refine ⟨by simp [hl], by simp [hm, hb], ?_⟩
      intro e' he'
      rcases List.mem_cons.mp he' with h' | h'
      · exact ⟨e, List.mem_cons_self e t, h' ▸ h1⟩
      · obtain ⟨e0, he0, hpe⟩ := hp e' h'
        exact ⟨e0, List.mem_cons_of_mem e he0, hpe⟩

/-- The comparison used for `entries.sort_by_key(|a| a.pointer)`. -/
def ptrLE (a b : Entry) : Prop := a.pointer ≤ b.pointer

instance : DecidableRel ptrLE := fun a b => Nat.decLe a.pointer b.pointer

instance : IsTotal Entry ptrLE := ⟨fun a b => Nat.le_total a.pointer b.pointer⟩

instance : IsTrans Entry ptrLE := ⟨fun _ _ _ h1 h2 => Nat.le_trans h1 h2⟩

theorem archiveBody_ok {w : Nat} {i : List Nat}
    {u : List Nat × Nat × List Entry × Footer}
    (h : archiveBody w i = .ok u) :
    ∃ s0 s1 s2 s3,
      takeBytes (wsub32 w HEADER_SIZE) i = .ok s0 ∧
      le_u32 s0.1 = .ok s1 ∧
      countN entry s1.2 s1.1 = .ok s2 ∧
      footer s2.1 = .ok s3 ∧
      populateEntries s0.2
        (List.insertionSort (fun a b => a.pointer ≤ b.pointer) s2.2) =
        .ok u.2.2.1 ∧
      u.2.1 = s1.2 := by
  unfold archiveBody at h
  obtain ⟨s0, h0, h⟩ := Res.bind_ok h
  obtain ⟨s1, h1, h⟩ := Res.bind_ok h
  obtain ⟨s2, h2, h⟩ := Res.bind_ok h
  obtain ⟨s3, h3, h⟩ := Res.bind_ok h
  obtain ⟨es, h4, h⟩ := Res.bind_ok h
  simp only [Res.ok.injEq] at h
  refine ⟨s0, s1, s2, s3, h0, h1, h2, h3, ?_, ?_⟩
  · rw [← h]
    exact h4
  · rw [← h]

theorem archive_ok {input : List Nat} {s : List Nat × Archive}
    (h : archive input = .ok s) :
    ∃ t u, header input = .ok t ∧ archiveBody t.2.pointer t.1 = .ok u ∧
      s.2.header = t.2 ∧ s.2.entry_count = u.2.1 ∧
      s.2.entries = u.2.2.1 ∧ s.2.footer = u.2.2.2 := by
  unfold archive at h
  obtain ⟨t, ht, h⟩ := Res.bind_ok h
  obtain ⟨u, hu, hv⟩ := Res.map_ok h
  exact ⟨t, u, ht, hu, by rw [hv], by rw [hv], by rw [hv], by rw [hv]⟩

theorem parse_ok {input : List Nat} {a : Archive}
    (h : parse input = .ok a) : ∃ rem, archive input = .ok (rem, a) := by
  unfold parse at h
  obtain ⟨s, hs, hv⟩ := Res.map_ok h
  exact ⟨s.1, by rw [hs, hv]⟩

/-- C5 helper: transfer sortedness along equality of pointer images. -/
theorem pairwise_of_map_pointer {es es' : List Entry}
    (h : es'.map Entry.pointer = es.map Entry.pointer)
    (hp : List.Pairwise ptrLE es) :
    List.Pairwise (fun a b : Entry => a.pointer ≤ b.pointer) es' := by
  have h1 : List.Pairwise (fun a b : Nat => a ≤ b) (es.map Entry.pointer) :=
    List.pairwise_map.mpr hp
  rw [← h] at h1
  exact List.pairwise_map.mp h1

/-- C5: a successfully parsed archive has exactly `entry_count` entries,
and they are sorted ascending by `data_pointer`.  (In this pure model no
operation can mutate the entry list afterwards; `filenames`, `get` and
`files` only read it.) -/
theorem C5_parse_invariants (input : List Nat) (a : Archive)
    (h : parse input = .ok a) :
    a.entries.length = a.entry_count ∧
    List.Pairwise (fun x y : Entry => x.pointer ≤ y.pointer) a.entries := by
  obtain ⟨rem, ha⟩ := parse_ok h
  obtain ⟨t, u, ht, hu, -, hcnt, hes, -⟩ := archive_ok ha
  obtain ⟨s0, s1, s2, s3, h0, h1, h2, h3, h4, h5⟩ := archiveBody_ok hu
  obtain ⟨hl, hm, -⟩ := populateEntries_ok h4
  constructor
  · rw [hes, hcnt, h5, hl]
    have hsort :
        (List.insertionSort (fun a b => a.pointer ≤ b.pointer) s2.2).length =
          s2.2.length := List.length_insertionSort _ _
    rw [hsort, countN_length h2]
  · rw [hes]
    refine pairwise_of_map_pointer hm ?_
    exact List.sorted_insertionSort ptrLE s2.2

/-- C5 witness at a concrete archive. -/
theorem C5_parse_invariants_witness :
    archDemo.entries.length = archDemo.entry_count ∧
    List.Pairwise (fun x y : Entry => x.pointer ≤ y.pointer)
      archDemo.entries :=
  C5_parse_invariants demoData archDemo (by decide)

theorem header_drop {input : List Nat} {t : List Nat × Header}
    (h : header input = .ok t) : t.1 = input.drop 12 := by
  unfold header at h
  obtain ⟨s0, h0, h⟩ := Res.bind_ok h
  obtain ⟨s1, h1, h⟩ := Res.bind_ok h
  obtain ⟨s2, h2, h⟩ := Res.bind_ok h
  simp only [Res.ok.injEq] at h
  rw [← h]
  simp only [le_u32_drop h2, le_u32_drop h1, le_u32_drop h0, List.drop_drop]

/-- The block-chain loop invariant: on success, the declared uncompressed
sizes of the collected blocks sum to the initial `bytes_remaining` modulo
`2^32` (the wrapping subtraction preserves the counter modulo `2^32`). -/
theorem chainBlocks_sum {data : List Nat} (hB : Bytes data) :
    ∀ (fuel offset remaining : Nat) (bs : List Block),
      chainBlocks data fuel offset remaining = .ok bs →
      (bs.map Block.uncompressed_size).sum % U32MOD = remaining % U32MOD := by
  intro fuel
  induction fuel with
  | zero =>
      intro o r bs h
      simp [chainBlocks] at h
  | succ n ih =>
      intro o r bs h
      cases r with
      | zero =>
          simp only [chainBlocks, Res.ok.injEq] at h
          rw [← h]
          rfl
      | succ m =>
          unfold chainBlocks at h
          split at h
          · exact absurd h (by simp)
          · cases hbl : block (data.drop o) with
            | ok p =>
                obtain ⟨prest, b⟩ := p
                rw [hbl] at h
                obtain ⟨bs', h1, h2⟩ := Res.map_ok h
                have hu : b.uncompressed_size < U32MOD :=
                  (block_ok hbl (hB.drop o)).2
                have hIH := ih _ _ _ h1
                rw [h2]
                simp only [List.map_cons, List.sum_cons]
                unfold wsub32 at hIH
                unfold U32MOD at hu hIH ⊢
                omega
            | err =>
                rw [hbl] at h
                exact absurd h (by simp)
            | panic =>
                rw [hbl] at h
                exact absurd h (by simp)

/-- C1 (amended): in a successfully parsed archive, every entry's block
chain was collected by the reconstructor loop and the declared
uncompressed sizes of its blocks sum to the entry's declared
`uncompressed_size` modulo `2^32`.  (The unamended equality fails when a
block's declared size exceeds the remaining counter: see the
counterexample.) -/
theorem C1_blocks_sum_mod (input : List Nat) (a : Archive)
    (hB : Bytes input) (h : parse input = .ok a) :
    ∀ e ∈ a.entries, e.blocks ≠ none ∧
      ∀ bs, e.blocks = some bs →
        (bs.map Block.uncompressed_size).sum % U32MOD =
          e.uncompressed_size % U32MOD := by
  obtain ⟨rem, ha⟩ := parse_ok h
  obtain ⟨t, u, ht, hu, -, -, hes, -⟩ := archive_ok ha
  obtain ⟨s0, s1, s2, s3, h0, h1, h2, h3, h4, -⟩ := archiveBody_ok hu
  have hdata : Bytes s0.2 := by
    rw [(takeBytes_ok h0).2.1, header_drop ht]
    exact (hB.drop 12).take _
  intro e he
  rw [hes] at he
  obtain ⟨-, -, hmem⟩ := populateEntries_ok h4
  obtain ⟨e0, -, hpe⟩ := hmem e he
  obtain ⟨bs0, hchain, hblocks⟩ := populateEntry_ok hpe
  constructor
  · rw [hblocks]
    simp
  · intro bs hbs
    have hbs0 : bs = bs0 := by
      rw [hblocks] at hbs
      exact (by simpa using hbs : bs0 = bs).symm
  -- the record update leaves `uncompressed_size` unchanged
    have husz : e.uncompressed_size = e0.uncompressed_size := by
      rw [hblocks]
    rw [hbs0, husz]
    exact chainBlocks_sum hdata _ _ _ _ hchain

/-- The first entry of `archWrap`. -/
def entryWrap : Entry := ⟨7, 12, 1, some [⟨0, 2, []⟩, ⟨0, 4294967295, []⟩]⟩

/-- C1 counterexample: `wrapData` parses successfully, yet the collected
blocks of its (only) entry have declared uncompressed sizes summing to
`2^32 + 1`, not the entry's declared `uncompressed_size = 1` — the
`bytes_remaining` counter wrapped.  The sum only matches modulo `2^32`. -/
theorem C1_blocks_sum_cex :
    parse wrapData = .ok archWrap ∧
    entryWrap ∈ archWrap.entries ∧
    entryWrap.blocks = some [⟨0, 2, []⟩, ⟨0, 4294967295, []⟩] ∧
    (([⟨0, 2, []⟩, ⟨0, 4294967295, []⟩] : List Block).map
        Block.uncompressed_size).sum = 4294967297 ∧
    entryWrap.uncompressed_size = 1 := by
  refine ⟨by decide, by decide, by decide, by decide, by decide⟩

/-- The first entry of `archDemo`. -/
def demoEntry0 : Entry := ⟨10, 12, 5, some [⟨3, 5, [1, 2, 3]⟩]⟩

/-- C1 witness: the amended theorem applied to a concrete parsed
archive and entry. -/
theorem C1_blocks_sum_mod_witness :
    demoEntry0.blocks ≠ none ∧
    (([⟨3, 5, [1, 2, 3]⟩] : List Block).map Block.uncompressed_size).sum %
        U32MOD = demoEntry0.uncompressed_size % U32MOD := by
  have h := C1_blocks_sum_mod demoData archDemo (by decide) (by decide)
    demoEntry0 (by decide)
  exact ⟨h.1, h.2 _ rfl⟩

/-! ## `Iterator::position` lemmas -/

theorem position_eq_none {α : Type} {p : α → Bool} :
    ∀ {l : List α}, position p l = none ↔ ∀ x ∈ l, p x = false := by
  intro l
  induction l with
  | nil => simp [position]
  | cons x xs ih =>
      by_cases hpx : p x <;>
        simp [position, hpx, ih, Option.map_eq_none']

/-- C7: `get` is a case-insensitive exact match against the resolved name
list — no match yields `None` (not an error), a match at position `pos`
yields the decompressed bytes of the entry at `pos`, and two queries equal
up to ASCII case produce identical results. -/
theorem C7_get_case_insensitive (inflate : List Nat → Option (List Nat))
    (a : Archive) (fns : List (List Nat)) (q1 q2 : List Nat)
    (hf : Archive.filenames inflate a = .ok fns) :
    ((∀ n ∈ fns, eqIgnoreAsciiCase n q1 = false) →
        Archive.get inflate a q1 = .ok none) ∧
    (∀ pos e bytes,
        position (fun f => eqIgnoreAsciiCase f q1) fns = some pos →
        a.entries.get? pos = some e →
        Entry.decompress inflate e = .ok bytes →
        Archive.get inflate a q1 = .ok (some bytes)) ∧
    (q1.map toAsciiLower = q2.map toAsciiLower →
        Archive.get inflate a q1 = Archive.get inflate a q2) := by
  have hget : ∀ q, Archive.get inflate a q =
      (match position (fun f => eqIgnoreAsciiCase f q) fns with
       | some pos =>
          (match a.entries.get? pos with
           | some e => Res.map some (Entry.decompress inflate e)
           | none => .ok none)
       | none => .ok none) := by
    intro q
    unfold Archive.get
    rw [hf]
    rfl
  refine ⟨?_, ?_, ?_⟩
  · intro hnone
    rw [hget q1, position_eq_none.mpr hnone]
  · intro pos e bytes hpos hent hdec
    rw [hget q1, hpos]
    dsimp only
    rw [hent]
    dsimp only
    rw [hdec]
    rfl
  · intro hq
    have hpred : (fun f => eqIgnoreAsciiCase f q1) =
        (fun f => eqIgnoreAsciiCase f q2) := by
      funext f
      unfold eqIgnoreAsciiCase
      rw [hq]
    rw [hget q1, hget q2, hpred]

/-- C7 witness: `get("A.TXT")` and `get("a.txt")` coincide on the demo
archive. -/
theorem C7_get_case_insensitive_witness :
    Archive.get inflateDemo archDemo [65, 46, 84, 88, 84] =
      Archive.get inflateDemo archDemo [97, 46, 116, 120, 116] :=
  (C7_get_case_insensitive inflateDemo archDemo
    [[97, 46, 116, 120, 116], [98, 46, 116, 120, 116]]
    [65, 46, 84, 88, 84] [97, 46, 116, 120, 116] (by decide)).2.2 (by decide)

theorem le_u32_cons (b0 b1 b2 b3 : Nat) (rest : List Nat) :
    le_u32 (b0 :: b1 :: b2 :: b3 :: rest) =
      .ok (rest, b0 + 256 * b1 + 65536 * b2 + 16777216 * b3) := rfl

theorem header_cons (b0 b1 b2 b3 b4 b5 b6 b7 b8 b9 b10 b11 : Nat)
    (rest : List Nat) :
    header (b0 :: b1 :: b2 :: b3 :: b4 :: b5 :: b6 :: b7 :: b8 :: b9 :: b10 :: b11 :: rest) =
      .ok (rest,
        ⟨b0 + 256 * b1 + 65536 * b2 + 16777216 * b3,
         b4 + 256 * b5 + 65536 * b6 + 16777216 * b7,
         b8 + 256 * b9 + 65536 * b10 + 16777216 * b11⟩) := rfl

/-- One definitional unfolding step of `fn archive`. -/
theorem archive_unfold (input : List Nat) :
    archive input =
      Res.bind (header input) fun s =>
        Res.map (fun t => (t.1, ⟨s.2, t.2.1, t.2.2.1, t.2.2.2⟩))
          (archiveBody s.2.pointer s.1) := rfl

/-! ## C10: the header's `magic_number` and `version` are never inspected -/

/-- Everything observable about a parse result except the `magic_number`
and `version` header fields. -/
def archiveView :
    Res (List Nat × Archive) → Res (List Nat × Nat × Nat × List Entry × Footer)
  | .ok s => .ok (s.1, s.2.header.pointer, s.2.entry_count, s.2.entries, s.2.footer)
  | .err => .err
  | .panic => .panic

/-- Parse a buffer and resolve its filenames. -/
def parseFilenames (inflate : List Nat → Option (List Nat)) (d : List Nat) :
    Res (List (List Nat)) :=
  Res.bind (parse d) (Archive.filenames inflate)

/-- Parse a buffer and fetch one name's bytes. -/
def parseGet (inflate : List Nat → Option (List Nat)) (d q : List Nat) :
    Res (Option (List Nat)) :=
  Res.bind (parse d) (fun a => Archive.get inflate a q)

/-- nom-level reduction of a successful bind, as a rewrite rule. -/
theorem Res.bind_ok_eq {α β : Type} (a : α) (f : α → Res β) :
    Res.bind (.ok a) f = f a := rfl

/-- Running `fn header` on a buffer of at least twelve bytes. -/
theorem header_append (b0 b1 b2 b3 b4 b5 b6 b7 b8 b9 b10 b11 : Nat)
    (rest : List Nat) :
    header ([b0, b1, b2, b3, b4, b5, b6, b7, b8, b9, b10, b11] ++ rest) =
      .ok (rest,
        ⟨b0 + 256 * b1 + 65536 * b2 + 16777216 * b3,
         b4 + 256 * b5 + 65536 * b6 + 16777216 * b7,
         b8 + 256 * b9 + 65536 * b10 + 16777216 * b11⟩) :=
  header_cons b0 b1 b2 b3 b4 b5 b6 b7 b8 b9 b10 b11 rest

/-- Changing only the header value (same `pointer`) in the assembly step
of `fn archive` does not change the `archiveView`. -/
theorem archiveView_map_congr (hd hd2 : Header)
    (hp : hd.pointer = hd2.pointer)
    (r : Res (List Nat × Nat × List Entry × Footer)) :
    archiveView
        (Res.map (fun t => (t.1, ⟨hd, t.2.1, t.2.2.1, t.2.2.2⟩)) r) =
      archiveView
        (Res.map (fun t => (t.1, ⟨hd2, t.2.1, t.2.2.1, t.2.2.2⟩)) r) := by
  cases r with
  | ok u =>
      dsimp only [Res.map, archiveView]
      rw [hp]
  | err => rfl
  | panic => rfl

/-- The operation `Archive::filenames` never reads the header. -/
theorem filenames_map_congr (inflate : List Nat → Option (List Nat))
    (hd hd2 : Header) (r : Res (List Nat × Nat × List Entry × Footer)) :
    Res.bind
        (Res.map (fun s => s.2)
          (Res.map (fun t => (t.1, ⟨hd, t.2.1, t.2.2.1, t.2.2.2⟩)) r))
        (Archive.filenames inflate) =
      Res.bind
        (Res.map (fun s => s.2)
          (Res.map (fun t => (t.1, ⟨hd2, t.2.1, t.2.2.1, t.2.2.2⟩)) r))
        (Archive.filenames inflate) := by
  cases r with
  | ok u => rfl
  | err => rfl
  | panic => rfl

/-- The operation `Archive::get` never reads the header. -/
theorem get_map_congr (inflate : List Nat → Option (List Nat))
    (q : List Nat) (hd hd2 : Header)
    (r : Res (List Nat × Nat × List Entry × Footer)) :
    Res.bind
        (Res.map (fun s => s.2)
          (Res.map (fun t => (t.1, ⟨hd, t.2.1, t.2.2.1, t.2.2.2⟩)) r))
        (fun a => Archive.get inflate a q) =
      Res.bind
        (Res.map (fun s => s.2)
          (Res.map (fun t => (t.1, ⟨hd2, t.2.1, t.2.2.1, t.2.2.2⟩)) r))
        (fun a => Archive.get inflate a q) := by
  cases r with
  | ok u => rfl
  | err => rfl
  | panic => rfl

/-- C10: two buffers that differ only in bytes 4-11 (the `magic_number`
and `version` fields) parse to the same outcome — both fail the same way
or both succeed with identical `entry_count`, entries (blocks included)
and footer — and resolve the same filenames and the same bytes for every
queried name under every decompressor. -/
theorem C10_magic_version_unused
    (p0 p1 p2 p3 m0 m1 m2 m3 m4 m5 m6 m7 n0 n1 n2 n3 n4 n5 n6 n7 : Nat)
    (post : List Nat) :
    archiveView
        (archive ([p0, p1, p2, p3, m0, m1, m2, m3, m4, m5, m6, m7] ++ post)) =
      archiveView
        (archive ([p0, p1, p2, p3, n0, n1, n2, n3, n4, n5, n6, n7] ++ post)) ∧
    (∀ inflate,
        parseFilenames inflate
            ([p0, p1, p2, p3, m0, m1, m2, m3, m4, m5, m6, m7] ++ post) =
          parseFilenames inflate
            ([p0, p1, p2, p3, n0, n1, n2, n3, n4, n5, n6, n7] ++ post)) ∧
    (∀ inflate q,
        parseGet inflate
            ([p0, p1, p2, p3, m0, m1, m2, m3, m4, m5, m6, m7] ++ post) q =
          parseGet inflate
            ([p0, p1, p2, p3, n0, n1, n2, n3, n4, n5, n6, n7] ++ post) q) := by
  refine ⟨?_, ?_, ?_⟩
  · simp only [archive_unfold, header_append]
    rw [Res.bind_ok_eq, Res.bind_ok_eq]
    dsimp only
    apply archiveView_map_congr
    rfl
  · intro inflate
    simp only [parseFilenames, parse, archive_unfold, header_append]
    rw [Res.bind_ok_eq, Res.bind_ok_eq]
    dsimp only
    apply filenames_map_congr
  · intro inflate q
    simp only [parseGet, parse, archive_unfold, header_append]
    rw [Res.bind_ok_eq, Res.bind_ok_eq]
    dsimp only
    apply get_map_congr

/-! ## Code-versus-spec divergences (C2, C3, C4, C6) -/

/-- A 12-byte buffer whose `directory_pointer` is `5 < 12`. -/
def smallPtrData : List Nat := [5, 0, 0, 0, 0, 0, 0, 0, 0, 0, 0, 0]

/-- C2: a `directory_pointer < 12` does produce a recoverable parse error
(the wrapping `pointer - 12` makes `take` fail), but a block whose
declared `compressed_size` exceeds the data region makes the code panic
through `.expect("Error parsing block")` instead of returning a
`CorruptArchive` error. -/
theorem C2_oversized_block_panics :
    parse smallPtrData = .err ∧ parse oversizeData = .panic :=
  ⟨by decide, by decide⟩

/-- C3: when a block's declared `uncompressed_size` (here 2) exceeds the
remaining counter (here 1), the `u32` subtraction silently wraps to
`2^32 - 1` and parsing continues — here even succeeding — instead of
failing with `CorruptArchive`. -/
theorem C3_underflow_wraps_silently :
    parse wrapData = .ok archWrap ∧
    wsub32 1 2 = 4294967295 ∧
    entryWrap ∈ archWrap.entries :=
  ⟨by decide, by decide, by decide⟩

/-- C4: decompression and directory-parse failures panic (terminate the
process) rather than returning a recoverable error: an empty archive
panics in `filenames` (`expect("Directory block does not exist")`), and a
malformed deflate stream (`inflate` failing on every payload) panics in
`filenames`, `get` and `files` (`expect("Failed to decompress block")`). -/
theorem C4_failures_terminate :
    parse emptyData = .ok archEmpty ∧
    Archive.filenames inflateDemo archEmpty = .panic ∧
    Archive.filenames (fun _ => none) archDemo = .panic ∧
    Archive.get (fun _ => none) archDemo [97, 46, 116, 120, 116] = .panic ∧
    Archive.files (fun _ => none) archDemo = .panic :=
  ⟨by decide, by decide, by decide, by decide, by decide⟩

/-- C6: the directory resolver never compares the payload's `file_count`
with the archive's `entry_count` — a 2-entry archive whose directory
declares one name resolves to a 1-name list without any error — and both
invalid UTF-8 bytes in a name (`String::from_utf8(...).unwrap()`) and a
name length overrunning the payload (`expect("Failed to parse directory
block")`) cause panics, not `CorruptArchive` error results. -/
theorem C6_directory_mismatch_and_panics :
    parse mismatchData = .ok archMis ∧
    archMis.entry_count = 2 ∧
    Archive.filenames inflateMis archMis = .ok [[97]] ∧
    Archive.filenames inflateMisBad archMis = .panic ∧
    Archive.filenames inflateMisOverrun archMis = .panic :=
  ⟨by decide, by decide, by decide, by decide, by decide⟩

/-! ## C8: `files()` alignment with `list_names()` and `get` -/

theorem get?_take_lt {α : Type} :
    ∀ (l : List α) (n i : Nat), i < n → (l.take n).get? i = l.get? i := by
  intro l
  induction l with
  | nil => intro n i h; simp
  | cons x xs ih =>
      intro n i h
      cases n with
      | zero => omega
      | succ m =>
          cases i with
          | zero => rfl
          | succ j => exact ih m j (by omega)

theorem get?_some_lt {α : Type} :
    ∀ (l : List α) (i : Nat) (a : α), l.get? i = some a → i < l.length := by
  intro l
  induction l with
  | nil => intro i a h; simp at h
  | cons x xs ih =>
      intro i a h
      cases i with
      | zero => simp
      | succ j =>
          have := ih j a h
          simp only [List.length_cons]
          omega

theorem get?_exists_of_lt {α : Type} :
    ∀ (l : List α) (i : Nat), i < l.length → ∃ a, l.get? i = some a := by
  intro l
  induction l with
  | nil => intro i h; simp at h
  | cons x xs ih =>
      intro i h
      cases i with
      | zero => exact ⟨x, rfl⟩
      | succ j => exact ih j (by simp only [List.length_cons] at h; omega)

theorem decompressAll_ok {inflate : List Nat → Option (List Nat)} :
    ∀ {es : List Entry} {ds : List (List Nat)},
      decompressAll inflate es = .ok ds →
      ds.length = es.length ∧
      ∀ i e, es.get? i = some e →
        ∃ d, ds.get? i = some d ∧ Entry.decompress inflate e = .ok d := by
  intro es
  induction es with
  | nil =>
      intro ds h
      simp only [decompressAll, Res.ok.injEq] at h
      subst h
      exact ⟨rfl, by intro i e he; simp at he⟩
  | cons e t ih =>
      intro ds h
      unfold decompressAll at h
      obtain ⟨d0, h1, h⟩ := Res.bind_ok h
      obtain ⟨ds2, h2, h3⟩ := Res.map_ok h
      obtain ⟨hl, hp⟩ := ih h2
      subst h3
      refine ⟨by simp [hl], ?_⟩
      intro i e2 he2
      cases i with
      | zero =>
          obtain rfl : e = e2 := by injection he2
          exact ⟨d0, rfl, h1⟩
      | succ j => exact hp j e2 he2

theorem files_ok {inflate : List Nat → Option (List Nat)} {a : Archive}
    {fns : List (List Nat)} {pairs : List (List Nat × List Nat)}
    (hf : Archive.filenames inflate a = .ok fns)
    (h : Archive.files inflate a = .ok pairs) :
    ∃ ds, decompressAll inflate (a.entries.take fns.length) = .ok ds ∧
      pairs = fns.zip ds := by
  unfold Archive.files at h
  rw [hf, Res.bind_ok_eq] at h
  obtain ⟨ds, hds, hpairs⟩ := Res.map_ok h
  exact ⟨ds, hds, hpairs⟩

/-- C8 (amended): when the resolved name list has exactly one name per
entry and `files()` succeeds, it yields exactly `entry_count` pairs and
the name at each position is the `list_names()` entry at that position;
the bytes at position `i` equal what `get` returns for that name whenever
the name's first case-insensitive match in the name list is at position
`i` — true in particular whenever the names are pairwise distinct up to
ASCII case.  With duplicated names `get` returns the first matching
entry's bytes for every duplicate position (see the counterexample). -/
theorem C8_files_aligned (inflate : List Nat → Option (List Nat))
    (a : Archive) (fns : List (List Nat))
    (pairs : List (List Nat × List Nat))
    (hf : Archive.filenames inflate a = .ok fns)
    (hlen : fns.length = a.entries.length)
    (hcnt : a.entries.length = a.entry_count)
    (hfl : Archive.files inflate a = .ok pairs) :
    pairs.length = a.entry_count ∧
    pairs.map Prod.fst = fns ∧
    ∀ i p, pairs.get? i = some p →
      position (fun f => eqIgnoreAsciiCase f p.1) fns = some i →
      Archive.get inflate a p.1 = .ok (some p.2) := by
  obtain ⟨ds, hds, hpairs⟩ := files_ok hf hfl
  have htl : (a.entries.take fns.length).length = fns.length := by
    rw [List.length_take, hlen, Nat.min_self]
  have hdsl : ds.length = fns.length := by
    rw [(decompressAll_ok hds).1, htl]
  have hplen : pairs.length = fns.length := by
    rw [hpairs, List.length_zip, hdsl, Nat.min_self]
  refine ⟨by rw [hplen, hlen, hcnt], ?_, ?_⟩
  · rw [hpairs]
    exact List.map_fst_zip fns ds (by rw [hdsl])
  · intro i p hp hpos
    rw [hpairs, List.get?_zip_eq_some] at hp
    obtain ⟨hp1, hp2⟩ := hp
    have hi : i < fns.length := by
      have := get?_some_lt ds i p.2 hp2
      omega
    obtain ⟨e, hte⟩ : ∃ e, (a.entries.take fns.length).get? i = some e :=
      get?_exists_of_lt _ i (by omega)
    obtain ⟨d, hd, hdec⟩ := (decompressAll_ok hds).2 i e hte
    have hdp : d = p.2 := by
      rw [hd] at hp2
      injection hp2
    have hent : a.entries.get? i = some e := by
      rw [← get?_take_lt a.entries fns.length i hi]
      exact hte
    have hget : Archive.get inflate a p.1 =
        (match position (fun f => eqIgnoreAsciiCase f p.1) fns with
         | some pos =>
            (match a.entries.get? pos with
             | some e2 => Res.map some (Entry.decompress inflate e2)
             | none => .ok none)
         | none => .ok none) := by
      unfold Archive.get
      rw [hf]
      rfl
    rw [hget, hpos]
    dsimp only
    rw [hent]
    dsimp only
    rw [hdec]
    dsimp only [Res.map]
    rw [hdp]

/-- C8 counterexample: a valid 2-entry archive whose directory lists the
name `a` twice.  `files()` pairs position 1 with the second entry's bytes
(the directory payload), while `get("a")` always returns the first
entry's bytes — so the byte payload at position 1 does not match the
corresponding `get` result. -/
theorem C8_files_get_cex :
    parse dupData = .ok archDup ∧
    Archive.filenames inflateDup archDup = .ok [[97], [97]] ∧
    Archive.files inflateDup archDup =
      .ok [([97], [5]), ([97], dupDirPayload)] ∧
    Archive.get inflateDup archDup [97] = .ok (some [5]) ∧
    dupDirPayload ≠ [5] :=
  ⟨by decide, by decide, by decide, by decide, by decide⟩

/-- C8 witness: the amended theorem instantiated on the demo archive. -/
theorem C8_files_aligned_witness :
    ([([97, 46, 116, 120, 116], [100, 101, 102, 103, 104]),
      ([98, 46, 116, 120, 116], demoDirPayload)] :
        List (List Nat × List Nat)).length = archDemo.entry_count ∧
    ([([97, 46, 116, 120, 116], [100, 101, 102, 103, 104]),
      ([98, 46, 116, 120, 116], demoDirPayload)] :
        List (List Nat × List Nat)).map Prod.fst =
      [[97, 46, 116, 120, 116], [98, 46, 116, 120, 116]] ∧
    Archive.get inflateDemo archDemo [97, 46, 116, 120, 116] =
      .ok (some [100, 101, 102, 103, 104]) := by
  have h := C8_files_aligned inflateDemo archDemo
    [[97, 46, 116, 120, 116], [98, 46, 116, 120, 116]]
    [([97, 46, 116, 120, 116], [100, 101, 102, 103, 104]),
     ([98, 46, 116, 120, 116], demoDirPayload)]
    (by decide) (by decide) (by decide) (by decide)
  exact ⟨h.1, h.2.1, h.2.2 0 ([97, 46, 116, 120, 116], [100, 101, 102, 103, 104])
    (by decide) (by decide)⟩

/-! ## C9: the case folding in `get` is ASCII-only -/

/-- C9 counterexample: `archCase` stores both `café` and `CAFÉ`.  The
query `CAFÉ` differs from the stored name `café` only in the case of the
non-ASCII letter `é`, and indeed does not match it (`eqIgnoreAsciiCase`
is `false`), yet `get` returns `some` — the second stored name matches
exactly — rather than the claimed "not found". -/
theorem C9_nonascii_case_cex :
    Archive.filenames inflateCase archCase =
      .ok [[99, 97, 102, 195, 169], [67, 65, 70, 195, 137], [100]] ∧
    eqIgnoreAsciiCase [99, 97, 102, 195, 169] [67, 65, 70, 195, 137] =
      false ∧
    Archive.get inflateCase archCase [67, 65, 70, 195, 137] =
      .ok (some [20]) :=
  ⟨by decide, by decide, by decide⟩

/-- C9 (amended): `get`'s matching folds only the ASCII letters `A`–`Z`;
bytes `≥ 128` are never folded, so a name and query differing in the case
of a non-ASCII letter do not match each other, and the query yields "not
found" when additionally no stored name matches it ASCII-case-
insensitively; two byte strings match exactly when their bytewise ASCII
lowercasings agree (so ASCII-case variants always match). -/
theorem C9_ascii_only_fold (inflate : List Nat → Option (List Nat))
    (a : Archive) (fns : List (List Nat)) (q : List Nat)
    (hf : Archive.filenames inflate a = .ok fns) :
    (∀ b, 128 ≤ b → toAsciiLower b = b) ∧
    (∀ n q2 : List Nat,
        eqIgnoreAsciiCase n q2 = true ↔
          n.map toAsciiLower = q2.map toAsciiLower) ∧
    ((∀ n ∈ fns, eqIgnoreAsciiCase n q = false) →
        Archive.get inflate a q = .ok none) := by
  refine ⟨?_, ?_, ?_⟩
  · intro b hb
    unfold toAsciiLower
    rw [if_neg]
    simp only [Bool.and_eq_true, decide_eq_true_eq, not_and]
    omega
  · intro n q2
    unfold eqIgnoreAsciiCase
    exact beq_iff_eq (a := n.map toAsciiLower) (b := q2.map toAsciiLower)
  · intro hnone
    have hget : Archive.get inflate a q =
        (match position (fun f => eqIgnoreAsciiCase f q) fns with
         | some pos =>
            (match a.entries.get? pos with
             | some e2 => Res.map some (Entry.decompress inflate e2)
             | none => .ok none)
         | none => .ok none) := by
      unfold Archive.get
      rw [hf]
      rfl
    rw [hget, position_eq_none.mpr hnone]

/-- C9 witness: on the `archCase` archive no stored name matches the
query `zzz`, and `get` returns "not found". -/
theorem C9_ascii_only_fold_witness :
    Archive.get inflateCase archCase [122, 122, 122] = .ok none :=
  (C9_ascii_only_fold inflateCase archCase
    [[99, 97, 102, 195, 169], [67, 65, 70, 195, 137], [100]]
    [122, 122, 122] (by decide)).2.2 (by decide)

end EqArchive
